import Mathlib

/-!
Shallow embedding of the PPG/GSR emotion-analysis service (`src/main.py`) and
proofs about its components: the threshold classifiers, the fusion rule, the
GSR analyzer, the PPG feature pipeline, the time parser and the endpoint's
chunk-processing loop.  Python floats are modelled as rationals (`ℚ`); a
possibly-missing sensor reading (NaN in pandas) is `Option ℚ` with `none`
standing for the missing value; fallible operations return `Option`.
-/

set_option autoImplicit false

namespace PPGGSR

/-- Embeds `classify_ppg_emotion` (src/main.py lines 12-22): an ordered
if/elif chain over the SDNN and RMSSD features. -/
def classify_ppg_emotion (ppg_sdnn ppg_rmssd : ℚ) : String :=
  if ppg_sdnn > 100 ∧ ppg_rmssd > 50 then "Happy"
  else if ppg_sdnn < 50 ∧ ppg_rmssd < 30 then "Sad"
  else if ppg_sdnn > 100 ∧ ppg_rmssd < 30 then "Angry"
  else if 50 ≤ ppg_sdnn ∧ ppg_sdnn ≤ 100 ∧ 30 ≤ ppg_rmssd ∧ ppg_rmssd ≤ 50 then "Neutral"
  else "Neutral/Calm"

/-- Embeds `classify_gsr_emotion` (src/main.py lines 26-34). -/
def classify_gsr_emotion (scr_amplitude scr_frequency : ℚ) : String :=
  if scr_amplitude > 1/2 ∧ scr_frequency > 1/20 then "Happy/Angry"
  else if scr_amplitude < 3/10 ∧ scr_frequency < 1/50 then "Sad"
  else if 3/10 ≤ scr_amplitude ∧ scr_amplitude ≤ 1/2 ∧ 1/50 ≤ scr_frequency ∧ scr_frequency ≤ 1/20 then "Neutral"
  else "Neutral/Calm"

/-- Embeds `combine_emotions` (src/main.py lines 56-60): GSR label wins only
when it is exactly "Happy/Angry". -/
def combine_emotions (ppg_emotion gsr_emotion : String) : String :=
  if gsr_emotion = "Happy/Angry" then gsr_emotion else ppg_emotion

/-- Scans forward from position `j` while the value at `j` equals the plateau
value `v` and `j` is below `iMax`; returns the first position where the scan
stops.  Embeds the inner `while i_ahead < i_max and x[i_ahead] == x[i]` loop of
scipy's `_local_maxima_1d`, the peak finder used by `find_peaks`. -/
def plateauEnd (x : Array ℚ) (iMax : ℕ) (v : ℚ) : ℕ → ℕ → ℕ
  | 0, j => j
  | fuel + 1, j => if j < iMax ∧ x.getD j 0 = v then plateauEnd x iMax v fuel (j + 1) else j

/-- Embeds the main loop of scipy's `_local_maxima_1d`: starting at sample `i`,
emits the midpoint of every maximal plateau that is strictly above both of its
neighbours, scanning up to (excluding) `iMax = length - 1`. -/
def localMaximaAux (x : Array ℚ) (iMax : ℕ) : ℕ → ℕ → List ℕ
  | 0, _ => []
  | fuel + 1, i =>
    if i < iMax then
      if x.getD (i - 1) 0 < x.getD i 0 then
        let iAhead := plateauEnd x iMax (x.getD i 0) x.size (i + 1)
        if x.getD iAhead 0 < x.getD i 0 then
          ((i + iAhead - 1) / 2) :: localMaximaAux x iMax fuel (iAhead + 1)
        else localMaximaAux x iMax fuel (i + 1)
      else localMaximaAux x iMax fuel (i + 1)
    else []

/-- Indices of the local maxima of `x`, as scipy's `_local_maxima_1d` computes
them: interior samples strictly greater than both neighbours, a flat peak
reported at the midpoint of its plateau, boundary samples never peaks. -/
def localMaxima (x : List ℚ) : List ℕ :=
  localMaximaAux x.toArray (x.length - 1) x.length 1

/-- Inserts index `a` into an already sorted list, keeping the order given by
`le`; auxiliary for the stable argsort below. -/
def insertBy (le : ℕ → ℕ → Bool) (a : ℕ) : List ℕ → List ℕ
  | [] => [a]
  | b :: bs => if le a b then a :: b :: bs else b :: insertBy le a bs

/-- Insertion sort of a list of indices by `le`; stable, so ties keep their
original relative order. -/
def sortBy (le : ℕ → ℕ → Bool) : List ℕ → List ℕ
  | [] => []
  | a :: as => insertBy le a (sortBy le as)

/-- Argsort of `priority` in ascending order, ties broken by index (a stable
sort, the deterministic reading of numpy's `argsort` inside scipy's
`_select_by_peak_distance`). -/
def argsortAsc (priority : List ℚ) : List ℕ :=
  sortBy
    (fun a b =>
      priority.getD a 0 < priority.getD b 0 ∨
        (priority.getD a 0 = priority.getD b 0 ∧ a ≤ b))
    (List.range priority.length)

/-- One step of scipy's `_select_by_peak_distance`: if peak number `j` is still
kept, discard every other kept peak whose position is closer than `distance`
samples to peak `j`. -/
def keepUpdate (peaks : Array ℕ) (distance : ℕ) (keep : List Bool) (j : ℕ) : List Bool :=
  if keep.getD j false = false then keep
  else
    (List.range keep.length).map fun k =>
      keep.getD k false &&
        (decide (k = j) ||
          decide ((distance : ℤ) ≤ ((peaks.getD k 0 : ℤ) - (peaks.getD j 0 : ℤ)).natAbs))

/-- Embeds scipy's `_select_by_peak_distance`: peaks are visited from highest
to lowest height (ties by index), and each surviving peak suppresses every
other peak within strictly less than `distance` samples of it.  Returns the
surviving peak positions in ascending order. -/
def selectByPeakDistance (peaks : List ℕ) (priority : List ℚ) (distance : ℕ) : List ℕ :=
  let pa := peaks.toArray
  let order := (argsortAsc priority).reverse
  let keep := order.foldl (keepUpdate pa distance) (List.replicate peaks.length true)
  ((List.range peaks.length).filter fun k => keep.getD k false).map fun k => pa.getD k 0

/-- Embeds `scipy.signal.find_peaks(x, height, distance)` as called on line 43
of src/main.py: local maxima, filtered to height at least `height` (inclusive,
as scipy's `_select_by_property` keeps `height <= peak_height`), then thinned
by the minimal-distance rule. -/
def find_peaks (x : List ℚ) (height : ℚ) (distance : ℕ) : List ℕ :=
  let candidates := localMaxima x
  let byHeight := candidates.filter fun i => height ≤ x.getD i 0
  selectByPeakDistance byHeight (byHeight.map fun i => x.getD i 0) distance

/-- Arithmetic mean of a list of rationals (`np.mean`); division is the total
division of `ℚ`, and every use below is guarded against an empty list. -/
def mean (l : List ℚ) : ℚ := l.sum / l.length

/-- The divisor `len(gsr_data) / sampling_rate` appearing in the SCR frequency
computation on line 50 of src/main.py. -/
def gsrFrequencyDivisor (gsr_data : List ℚ) (sampling_rate : ℕ) : ℚ :=
  (gsr_data.length : ℚ) / (sampling_rate : ℚ)

/-- Embeds `analyze_gsr` (src/main.py lines 38-52): empty guard, SCR peak
detection with height 0.1 and distance `int(1.0 * sampling_rate)`, mean peak
amplitude above the segment mean, and peak count per second. -/
def analyze_gsr (gsr_data : List ℚ) (sampling_rate : ℕ) : ℚ × ℚ :=
  if gsr_data.length = 0 then (0, 0)
  else
    let scr_peaks := find_peaks gsr_data (1/10) sampling_rate
    let scr_amplitudes := scr_peaks.map fun i => gsr_data.getD i 0 - mean gsr_data
    let scr_amplitude := if scr_amplitudes.length > 0 then mean scr_amplitudes else 0
    let scr_frequency := (scr_peaks.length : ℚ) / gsrFrequencyDivisor gsr_data sampling_rate
    (scr_amplitude, scr_frequency)

/-- Successive first differences of a list, `np.diff`: element `i` is
`l[i+1] - l[i]`. -/
def diffs (l : List ℚ) : List ℚ := List.zipWith (fun a b => b - a) l l.tail

/-- Successive first differences of a segment that may contain missing values:
a difference with a missing operand is missing, mirroring NaN propagation
through `np.diff`. -/
def diffOpt (l : List (Option ℚ)) : List (Option ℚ) :=
  List.zipWith
    (fun a b =>
      match a, b with
      | some x, some y => some (y - x)
      | _, _ => none)
    l l.tail

/-- Indices where the (possibly missing) first difference is strictly
positive, `np.where(np.diff(seg) > 0)[0]` on line 113 of src/main.py: a
missing difference (NaN) fails the `> 0` comparison, exactly as NaN does. -/
def risingEdges (seg : List (Option ℚ)) : List ℕ :=
  (diffOpt seg).enum.filterMap fun p =>
    match p.2 with
    | some d => if 0 < d then some p.1 else none
    | none => none

/-- The pseudo R-R intervals of line 113: successive differences between
consecutive rising-edge indices, as rationals. -/
def ppg_rr_intervals (seg : List (Option ℚ)) : List ℚ :=
  diffs ((risingEdges seg).map fun i => (i : ℚ))

/-- Population variance of a list (`np.std` squared): the mean of squared
deviations from the mean.  The pipeline's SDNN is the square root of this. -/
def variance (l : List ℚ) : ℚ := mean (l.map fun x => (x - mean l) ^ 2)

/-- Mean of the squares of successive differences (`np.mean(np.square(np.diff(l)))`).
The pipeline's RMSSD is the square root of this. -/
def meanSquareDiffs (l : List ℚ) : ℚ := mean ((diffs l).map fun d => d ^ 2)

/-- The PPG classifier applied to `sdnn = √v` and `rmssd = √m`: both features
are square roots of nonnegative rationals and every threshold is nonnegative,
so each comparison of line 13-19 commutes with squaring and is performed here
on the squares (thresholds 100, 50, 30 become 10000, 2500, 900); the lemma
`classify_ppg_emotion_sq_eq` below proves this reading faithful. -/
def classify_ppg_emotion_sq (v m : ℚ) : String :=
  if v > 10000 ∧ m > 2500 then "Happy"
  else if v < 2500 ∧ m < 900 then "Sad"
  else if v > 10000 ∧ m < 900 then "Angry"
  else if 2500 ≤ v ∧ v ≤ 10000 ∧ 900 ≤ m ∧ m ≤ 2500 then "Neutral"
  else "Neutral/Calm"

/-- The PPG half of the loop body (src/main.py lines 111-118): default label
"Neutral/Calm", overridden only when the windowed segment is not wholly
missing and the rising-edge intervals number more than one; note the code
computes the intervals on the raw segment, missing values included. -/
def ppg_emotion_of (seg : List (Option ℚ)) : String :=
  if seg.all Option.isNone then "Neutral/Calm"
  else
    let rr := ppg_rr_intervals seg
    if 1 < rr.length then classify_ppg_emotion_sq (variance rr) (meanSquareDiffs rr)
    else "Neutral/Calm"

/-- The GSR half of the loop body (src/main.py lines 120-123): default label
"Neutral/Calm", overridden when the segment is not wholly missing by analyzing
the segment with missing values dropped (`gsr_segment.dropna()`). -/
def gsr_emotion_of (seg : List (Option ℚ)) : String :=
  if seg.all Option.isNone then "Neutral/Calm"
  else
    let p := analyze_gsr (seg.filterMap id) 100
    classify_gsr_emotion p.1 p.2

/-- The PPG Analyzer of spec section 4.3 composed with the section 4.4
classifier, applied to a clean segment whose missing values have already been
excluded: first differences, strictly positive positions, interval
differences, then features (compared on their squares) or the default label.
This is the spec side of the refinement claim about missing-value handling. -/
def ppg_analyzer_label (xs : List ℚ) : String :=
  let rising : List ℕ := (diffs xs).enum.filterMap fun p => if 0 < p.2 then some p.1 else none
  let rr := diffs (rising.map fun i => (i : ℚ))
  if 1 < rr.length then classify_ppg_emotion_sq (variance rr) (meanSquareDiffs rr)
  else "Neutral/Calm"

/-- One row of the parsed signal table: a time in seconds and the two optional
channel readings. -/
structure Row where
  time : ℚ
  ppg : Option ℚ
  gsr : Option ℚ
  deriving DecidableEq

/-- One requested window (`chunk`): the two timestamps and the text label. -/
structure Chunk where
  start : ℚ
  stop : ℚ
  text : String
  deriving DecidableEq

/-- One entry of the endpoint's `results` list (src/main.py lines 127-131). -/
structure ResultRecord where
  timestamp : ℚ × ℚ
  text : String
  emotion : String
  deriving DecidableEq

/-- The windowed PPG segment of lines 108: rows whose time lies in the
inclusive window, projected to the PPG channel (missing values kept). -/
def ppg_segment_of (table : List Row) (c : Chunk) : List (Option ℚ) :=
  (table.filter fun r => decide (c.start ≤ r.time ∧ r.time ≤ c.stop)).map Row.ppg

/-- The windowed GSR segment of line 109. -/
def gsr_segment_of (table : List Row) (c : Chunk) : List (Option ℚ) :=
  (table.filter fun r => decide (c.start ≤ r.time ∧ r.time ≤ c.stop)).map Row.gsr

/-- The body of the `for chunk in chunks_data["chunks"]` loop (src/main.py
lines 101-131): slice both channels, classify each, fuse, and build the result
record echoing the chunk's timestamps and text. -/
def process_chunk (table : List Row) (c : Chunk) : ResultRecord :=
  { timestamp := (c.start, c.stop)
    text := c.text
    emotion :=
      combine_emotions (ppg_emotion_of (ppg_segment_of table c))
        (gsr_emotion_of (gsr_segment_of table c)) }

/-- The whole loop: one result per chunk, in order. -/
def analyze_chunks (table : List Row) (chunks : List Chunk) : List ResultRecord :=
  chunks.map (process_chunk table)

/-- Splits a character list at every occurrence of the separator `c`, keeping
empty pieces, like Python's `str.split(sep)`: splitting the empty string
yields one empty piece. -/
def splitOnChar (c : Char) : List Char → List (List Char)
  | [] => [[]]
  | x :: xs =>
    if x = c then [] :: splitOnChar c xs
    else
      match splitOnChar c xs with
      | [] => [[x]]
      | h :: t => (x :: h) :: t

/-- Joins pieces back with the separator `c`; the left inverse used to read a
`splitOnChar` result back into the original string. -/
def joinSep (c : Char) : List (List Char) → List Char
  | [] => []
  | [p] => p
  | p :: ps => p ++ c :: joinSep c ps

/-- Removes leading and trailing whitespace, as Python's `int(str)` does
before parsing (the ASCII whitespace characters of `Char.isWhitespace`). -/
def stripWs (s : List Char) : List Char :=
  ((s.dropWhile Char.isWhitespace).reverse.dropWhile Char.isWhitespace).reverse

/-- Accepts the tail of a Python integer literal after its first digit: each
`_` must be followed by a digit (no doubled, no trailing underscore), every
other character must be a digit. -/
def pyDigitsTail : List Char → Bool
  | [] => true
  | c :: rest =>
    if c = '_' then
      match rest with
      | [] => false
      | c2 :: rest2 => c2.isDigit && pyDigitsTail rest2
    else c.isDigit && pyDigitsTail rest

/-- Accepts the digit part of a Python integer literal: nonempty, starting
with a digit, underscores only between digits. -/
def pyDigitsBody : List Char → Bool
  | [] => false
  | c :: rest => c.isDigit && pyDigitsTail rest

/-- Decimal value of a digit string. -/
def digitsVal (s : List Char) : ℕ :=
  s.foldl (fun a c => 10 * a + (c.toNat - 48)) 0

/-- Decimal value of a Python digit group, ignoring the grouping underscores. -/
def pyIntDigitsVal (s : List Char) : ℕ :=
  digitsVal (s.filter fun c => c ≠ '_')

/-- Embeds Python's `int(str)`: strip surrounding whitespace, allow one
optional sign, then decimal digits with optional single grouping underscores;
`none` models the `ValueError` that `convert_time_to_seconds` catches. -/
def pyInt (s : List Char) : Option ℤ :=
  match stripWs s with
  | '+' :: rest => if pyDigitsBody rest then some (pyIntDigitsVal rest : ℤ) else none
  | '-' :: rest => if pyDigitsBody rest then some (-(pyIntDigitsVal rest : ℤ)) else none
  | t => if pyDigitsBody t then some (pyIntDigitsVal t : ℤ) else none

/-- The tuple unpacking `a, b = parts`: succeeds exactly when the list has two
elements, otherwise raises `ValueError` (modelled as `none`). -/
def twoParts : List (List Char) → Option (List Char × List Char)
  | [a, b] => some (a, b)
  | _ => none

/-- Embeds `convert_time_to_seconds` (src/main.py lines 64-71): split once on
`:` (the tuple unpacking fails unless the split has exactly two parts), split
the remainder once on `.`, parse both integer parts, and return
`minutes * 60 + seconds`; every failure is the caught
`ValueError`/`AttributeError`, i.e. `none`. -/
def convert_time_to_seconds (time_str : List Char) : Option ℤ :=
  (twoParts (splitOnChar ':' time_str)).bind fun p1 =>
    (twoParts (splitOnChar '.' p1.2)).bind fun p2 =>
      (pyInt p1.1).bind fun m =>
        (pyInt p2.1).bind fun s =>
          some (m * 60 + s)

/-- A value found in the CSV `time` column: either a string cell or the
integer row index that line 82 of src/main.py substitutes when the column is
missing. -/
inductive TimeCell where
  | str (s : List Char)
  | int (n : ℤ)

/-- `convert_time_to_seconds` as applied by `df['time'].apply` on line 84: on
a non-string value `time_str.split(':')` raises `AttributeError`, which the
function catches and turns into `None`. -/
def convert_time_cell : TimeCell → Option ℤ
  | .str s => convert_time_to_seconds s
  | .int _ => none

/-- A CSV row before the time column is attached: just the two channel
readings. -/
structure RawRow where
  ppg : Option ℚ
  gsr : Option ℚ
  deriving DecidableEq

/-- The signal table built on the missing-`time`-column path (src/main.py
lines 80-85): the time value of row `i` is its integer index, each time is
passed through the parser, and rows whose parse returned `None` are dropped
(`df.dropna(subset=['time'])`). -/
def table_with_index_time (rows : List RawRow) : List Row :=
  ((List.range rows.length).zip rows).filterMap fun p =>
    (convert_time_cell (.int p.1)).map fun t =>
      { time := (t : ℚ), ppg := p.2.ppg, gsr := p.2.gsr }

/-- The endpoint's behaviour on a CSV without a `time` column: index-as-time
table construction followed by the ordinary chunk loop. -/
def analyze_missing_time (rows : List RawRow) (chunks : List Chunk) : List ResultRecord :=
  analyze_chunks (table_with_index_time rows) chunks

end PPGGSR

namespace PPGGSR

/-- C1 counterexample: the claim asserts `classify_ppg_emotion 100 30 = "Angry"`,
but rule 3 requires `sdnn > 100` strictly, so (100,30) falls through to rule 4's
inclusive bounds and yields "Neutral". -/
theorem classify_ppg_corner_100_30_not_angry :
    classify_ppg_emotion 100 30 ≠ "Angry" := by decide

/-- C1 (amended): at the four threshold corners the classifier returns
(50,30) ↦ "Neutral", (100,30) ↦ "Neutral", (75,40) ↦ "Neutral" and
(100,50) ↦ "Neutral" — rules 1 and 3 require strict `> 100` (resp. `> 50`,
`< 30`), so every one of the four corners is caught by rule 4's inclusive
bounds. -/
theorem classify_ppg_corners :
    classify_ppg_emotion 50 30 = "Neutral" ∧
    classify_ppg_emotion 100 30 = "Neutral" ∧
    classify_ppg_emotion 75 40 = "Neutral" ∧
    classify_ppg_emotion 100 50 = "Neutral" := by decide

/-- C2: `classify_ppg_emotion` is the ordered decision list of spec section 4.4
with first match winning, with exactly the source's strict/inclusive
boundaries, for all inputs. -/
theorem classify_ppg_emotion_decision_list (s r : ℚ) :
    (classify_ppg_emotion s r = "Happy" ↔ (s > 100 ∧ r > 50)) ∧
    (classify_ppg_emotion s r = "Sad" ↔
      (¬(s > 100 ∧ r > 50) ∧ (s < 50 ∧ r < 30))) ∧
    (classify_ppg_emotion s r = "Angry" ↔
      (¬(s > 100 ∧ r > 50) ∧ ¬(s < 50 ∧ r < 30) ∧ (s > 100 ∧ r < 30))) ∧
    (classify_ppg_emotion s r = "Neutral" ↔
      (¬(s > 100 ∧ r > 50) ∧ ¬(s < 50 ∧ r < 30) ∧ ¬(s > 100 ∧ r < 30) ∧
        (50 ≤ s ∧ s ≤ 100 ∧ 30 ≤ r ∧ r ≤ 50))) ∧
    (classify_ppg_emotion s r = "Neutral/Calm" ↔
      (¬(s > 100 ∧ r > 50) ∧ ¬(s < 50 ∧ r < 30) ∧ ¬(s > 100 ∧ r < 30) ∧
        ¬(50 ≤ s ∧ s ≤ 100 ∧ 30 ≤ r ∧ r ≤ 50))) := by
  unfold classify_ppg_emotion
  split_ifs with h1 h2 h3 h4 <;> simp_all

/-- C4: the fusion rule returns the GSR label exactly when it is "Happy/Angry"
and the PPG label otherwise, for every pair of labels. -/
theorem combine_emotions_spec (p g : String) :
    (g = "Happy/Angry" → combine_emotions p g = "Happy/Angry") ∧
    (g ≠ "Happy/Angry" → combine_emotions p g = p) := by
  unfold combine_emotions
  constructor
  · intro h; simp [h]
  · intro h; simp [h]

/-- Witness for C4 at concrete labels: GSR "Happy/Angry" wins over PPG "Sad",
and a non-"Happy/Angry" GSR label lets the PPG label through. -/
theorem combine_emotions_spec_witness :
    combine_emotions "Sad" "Happy/Angry" = "Happy/Angry" ∧
    combine_emotions "Sad" "Neutral" = "Sad" :=
  ⟨(combine_emotions_spec "Sad" "Happy/Angry").1 rfl,
   (combine_emotions_spec "Sad" "Neutral").2 (by decide)⟩

/-- C5: `analyze_gsr` returns (0, 0) on the empty segment, and on every
non-empty segment the frequency divisor `len / sampling_rate` (rate 100) is
nonzero, so the frequency computation never divides by zero — including for
length-1 segments. -/
theorem analyze_gsr_empty_and_divisor_nonzero :
    analyze_gsr [] 100 = (0, 0) ∧
    ∀ gsr_data : List ℚ, gsr_data ≠ [] → gsrFrequencyDivisor gsr_data 100 ≠ 0 := by
  refine ⟨rfl, fun l h => ?_⟩
  have hl : (l.length : ℚ) ≠ 0 := by
    exact_mod_cast fun h0 => h (List.length_eq_zero.mp h0)
  exact div_ne_zero hl (by norm_num)

/-- Witness for C5 at the length-1 segment [1]: the divisor is 1/100 ≠ 0. -/
theorem analyze_gsr_empty_and_divisor_nonzero_witness :
    analyze_gsr [] 100 = (0, 0) ∧ gsrFrequencyDivisor [(1 : ℚ)] 100 ≠ 0 :=
  ⟨analyze_gsr_empty_and_divisor_nonzero.1,
   analyze_gsr_empty_and_divisor_nonzero.2 [(1 : ℚ)] (by decide)⟩

/-- Helper: on a segment with no missing values, the missing-aware first
difference agrees with the plain first difference. -/
theorem diffOpt_map_some : ∀ xs : List ℚ, diffOpt (xs.map some) = (diffs xs).map some
  | [] => rfl
  | [_] => rfl
  | a :: b :: t => by
    have ih := diffOpt_map_some (b :: t)
    simp only [diffOpt, diffs, List.map_cons, List.tail_cons, List.zipWith_cons_cons] at ih ⊢
    rw [ih]

/-- Helper: on a segment with no missing values, the pipeline's rising-edge
positions are those of the plain first-difference signal. -/
theorem risingEdges_map_some (xs : List ℚ) :
    risingEdges (xs.map some) =
      (diffs xs).enum.filterMap fun p => if 0 < p.2 then some p.1 else none := by
  unfold risingEdges
  rw [diffOpt_map_some, List.enum_map, List.filterMap_map]
  congr 1

/-- C3 (amended): the pipeline computes the PPG rising edges over the raw
windowed segment with missing values retained (a difference touching a missing
value fails the `> 0` test, as NaN does), so it coincides with the spec's PPG
Analyzer on the present values only when the segment has no missing values at
all. -/
theorem ppg_pipeline_eq_analyzer_on_clean (xs : List ℚ) :
    ppg_emotion_of (xs.map some) = ppg_analyzer_label xs := by
  cases xs with
  | nil => rfl
  | cons a t =>
    unfold ppg_emotion_of ppg_analyzer_label ppg_rr_intervals
    rw [risingEdges_map_some]
    simp only [List.map_cons, List.all_cons, Option.isNone_some, Bool.false_and]
    rfl

/-- C3 counterexample: on the segment [0, 1, NaN, 2, 3] (not wholly absent)
the pipeline's PPG label differs from the PPG Analyzer run on the present
values [0, 1, 2, 3]: the NaN kills two differences, leaving one interval
(label "Neutral/Calm"), while the analyzer on present values finds intervals
[1, 1] and classifies (sdnn, rmssd) = (0, 0) as "Sad". -/
theorem ppg_pipeline_nan_counterexample :
    ¬ (([some 0, some 1, none, some 2, some 3] : List (Option ℚ)).all Option.isNone) ∧
    ppg_emotion_of [some 0, some 1, none, some 2, some 3] ≠
      ppg_analyzer_label (([some 0, some 1, none, some 2, some 3] : List (Option ℚ)).filterMap id) := by
  have h1 : ppg_emotion_of [some 0, some 1, none, some 2, some 3] = "Neutral/Calm" := by
    norm_num [ppg_emotion_of, ppg_rr_intervals, risingEdges, diffOpt, diffs, List.zipWith,
      List.enum, List.enumFrom, List.filterMap]
  have h2 : ppg_analyzer_label (([some 0, some 1, none, some 2, some 3] : List (Option ℚ)).filterMap id) = "Sad" := by
    norm_num [List.filterMap, ppg_analyzer_label, diffs, List.zipWith, List.enum, List.enumFrom,
      variance, meanSquareDiffs, mean, classify_ppg_emotion_sq]
  refine ⟨by decide, ?_⟩
  rw [h1, h2]
  decide

/-- C7: the chunk loop produces exactly one result record per input chunk, in
input order, and each record echoes its chunk's timestamp pair and text
unchanged, for every table and every chunks list (empty, singleton or
longer). -/
theorem analyze_chunks_one_record_per_chunk (table : List Row) (chunks : List Chunk) :
    (analyze_chunks table chunks).length = chunks.length ∧
    ∀ i : ℕ,
      ((analyze_chunks table chunks)[i]?).map ResultRecord.timestamp =
        (chunks[i]?).map (fun c => (c.start, c.stop)) ∧
      ((analyze_chunks table chunks)[i]?).map ResultRecord.text =
        (chunks[i]?).map Chunk.text := by
  refine ⟨by simp [analyze_chunks], fun i => ?_⟩
  unfold analyze_chunks
  rw [List.getElem?_map]
  cases chunks[i]? with
  | none => simp
  | some c => simp [process_chunk]

/-- C8: whenever a window's PPG segment yields fewer than 2 rising-edge
intervals, the features are never computed and the pipeline keeps the default
PPG label "Neutral/Calm". -/
theorem ppg_few_intervals_default_label (seg : List (Option ℚ))
    (h : (ppg_rr_intervals seg).length < 2) :
    ppg_emotion_of seg = "Neutral/Calm" := by
  unfold ppg_emotion_of
  split_ifs with h1
  · rfl
  · have hlt : ¬ 1 < (ppg_rr_intervals seg).length := by omega
    simp [hlt]

/-- Witness for C8 at the segment [1, NaN]: it has zero rising-edge intervals
and the pipeline labels it "Neutral/Calm". -/
theorem ppg_few_intervals_default_label_witness :
    (ppg_rr_intervals [some (1 : ℚ), none]).length < 2 ∧
    ppg_emotion_of [some (1 : ℚ), none] = "Neutral/Calm" := by
  have h : (ppg_rr_intervals [some (1 : ℚ), none]).length < 2 := by decide
  exact ⟨h, ppg_few_intervals_default_label _ h⟩

/-- Helper: splitting never yields an empty list of pieces. -/
theorem splitOnChar_ne_nil (c : Char) : ∀ s, splitOnChar c s ≠ []
  | [] => by simp [splitOnChar]
  | x :: xs => by
    unfold splitOnChar
    split_ifs
    · simp
    · cases h : splitOnChar c xs <;> simp

/-- Helper: splitting at the first separator occurrence peels off the prefix. -/
theorem splitOnChar_append (c : Char) (b : List Char) :
    ∀ a : List Char, c ∉ a → splitOnChar c (a ++ c :: b) = a :: splitOnChar c b
  | [], _ => by simp [splitOnChar]
  | x :: a, ha => by
    have hx : ¬ x = c := fun h => ha (h ▸ List.mem_cons_self x a)
    have ha2 : c ∉ a := fun h => ha (List.mem_cons_of_mem x h)
    have ih := splitOnChar_append c b a ha2
    simp only [List.cons_append, splitOnChar, if_neg hx, List.append_eq]
    rw [ih]

/-- Helper: a string without the separator is a single piece. -/
theorem splitOnChar_no_sep (c : Char) : ∀ a : List Char, c ∉ a → splitOnChar c a = [a]
  | [], _ => rfl
  | x :: a, ha => by
    have hx : ¬ x = c := fun h => ha (h ▸ List.mem_cons_self x a)
    have ha2 : c ∉ a := fun h => ha (List.mem_cons_of_mem x h)
    simp only [splitOnChar, if_neg hx, splitOnChar_no_sep c a ha2]

/-- Helper: joining the split pieces with the separator restores the string. -/
theorem joinSep_splitOnChar (c : Char) : ∀ s, joinSep c (splitOnChar c s) = s
  | [] => rfl
  | x :: xs => by
    have ih := joinSep_splitOnChar c xs
    unfold splitOnChar
    split_ifs with hx
    · cases hsp : splitOnChar c xs with
      | nil => exact absurd hsp (splitOnChar_ne_nil c xs)
      | cons h t =>
        rw [hsp] at ih
        subst hx
        simp [joinSep, ih]
    · cases hsp : splitOnChar c xs with
      | nil => exact absurd hsp (splitOnChar_ne_nil c xs)
      | cons h t =>
        rw [hsp] at ih
        cases t with
        | nil => simp_all [joinSep]
        | cons t1 t2 => simp_all [joinSep]

/-- Helper: no piece of a split contains the separator. -/
theorem not_mem_of_mem_splitOnChar (c : Char) :
    ∀ s p, p ∈ splitOnChar c s → c ∉ p
  | [], p, hp => by
    simp [splitOnChar] at hp
    simp [hp]
  | x :: xs, p, hp => by
    unfold splitOnChar at hp
    split_ifs at hp with hx
    · rcases List.mem_cons.mp hp with rfl | hmem
      · simp
      · exact not_mem_of_mem_splitOnChar c xs p hmem
    · cases hsp : splitOnChar c xs with
      | nil => exact absurd hsp (splitOnChar_ne_nil c xs)
      | cons h t =>
        rw [hsp] at hp
        rcases List.mem_cons.mp hp with rfl | hmem
        · intro hcmem
          rcases List.mem_cons.mp hcmem with hc | hc
          · exact hx hc.symm
          · exact not_mem_of_mem_splitOnChar c xs h (hsp ▸ List.mem_cons_self h t) hc
        · exact not_mem_of_mem_splitOnChar c xs p (hsp ▸ List.mem_cons_of_mem h hmem)


/-- Helper: inversion for the two-tuple unpacking. -/
theorem twoParts_eq_some : ∀ (l : List (List Char)) (p : List Char × List Char),
    twoParts l = some p → l = [p.1, p.2]
  | [a, b], p, h => by
    cases Option.some.inj h
    rfl
  | [], _, h => by simp [twoParts] at h
  | [_], _, h => by simp [twoParts] at h
  | _ :: _ :: _ :: _, _, h => by simp [twoParts] at h

/-- C6: the time parser returns `minutes * 60 + seconds` on every string of
the form `<minutes>:<seconds>.<sample>` whose minute and second parts parse as
Python integers (so "1:30.045" gives 90), and conversely it succeeds only on
strings of exactly that shape — any input without exactly one `:` and one `.`
in the expected positions, or whose minute/second parts are not integers
(such as "abc" or "1-30"), yields the `None` sentinel rather than an
exception. -/
theorem convert_time_to_seconds_spec :
    (∀ a c d : List Char, ∀ m s : ℤ,
      ':' ∉ a → ':' ∉ c → ':' ∉ d → '.' ∉ c → '.' ∉ d →
      pyInt a = some m → pyInt c = some s →
      convert_time_to_seconds (a ++ ':' :: (c ++ '.' :: d)) = some (m * 60 + s)) ∧
    (∀ t v, convert_time_to_seconds t = some v →
      ∃ a c d m s, t = a ++ ':' :: (c ++ '.' :: d) ∧
        ':' ∉ a ∧ ':' ∉ c ∧ ':' ∉ d ∧ '.' ∉ c ∧ '.' ∉ d ∧
        pyInt a = some m ∧ pyInt c = some s ∧ v = m * 60 + s) ∧
    convert_time_to_seconds ['1', ':', '3', '0', '.', '0', '4', '5'] = some 90 ∧
    convert_time_to_seconds ['a', 'b', 'c'] = none ∧
    convert_time_to_seconds ['1', '-', '3', '0'] = none := by
  refine ⟨?_, ?_, by decide, by decide, by decide⟩
  · intro a c d m s ha hc hd hc2 hd2 hm hs
    have hnotin : ':' ∉ c ++ '.' :: d := by
      intro hmem
      rcases List.mem_append.mp hmem with h | h
      · exact hc h
      · rcases List.mem_cons.mp h with h | h
        · exact absurd h (by decide)
        · exact hd h
    have h1 : splitOnChar ':' (a ++ ':' :: (c ++ '.' :: d)) = [a, c ++ '.' :: d] := by
      rw [splitOnChar_append ':' (c ++ '.' :: d) a ha, splitOnChar_no_sep ':' _ hnotin]
    have h2 : splitOnChar '.' (c ++ '.' :: d) = [c, d] := by
      rw [splitOnChar_append '.' d c hc2, splitOnChar_no_sep '.' d hd2]
    simp only [convert_time_to_seconds, h1, h2, twoParts, Option.some_bind, hm, hs]
  · intro t v hv
    simp only [convert_time_to_seconds] at hv
    obtain ⟨p1, hp1, hv⟩ := Option.bind_eq_some.mp hv
    obtain ⟨p2, hp2, hv⟩ := Option.bind_eq_some.mp hv
    obtain ⟨m, hm, hv⟩ := Option.bind_eq_some.mp hv
    obtain ⟨s, hs, hv⟩ := Option.bind_eq_some.mp hv
    have h1 := twoParts_eq_some _ _ hp1
    have h2 := twoParts_eq_some _ _ hp2
    have hjoin1 := joinSep_splitOnChar ':' t
    rw [h1] at hjoin1
    have ht : t = p1.1 ++ ':' :: p1.2 := by simpa [joinSep] using hjoin1.symm
    have hjoin2 := joinSep_splitOnChar '.' p1.2
    rw [h2] at hjoin2
    have hss : p1.2 = p2.1 ++ '.' :: p2.2 := by simpa [joinSep] using hjoin2.symm
    have hcolon_m : ':' ∉ p1.1 :=
      not_mem_of_mem_splitOnChar ':' t p1.1 (h1 ▸ List.mem_cons_self _ _)
    have hcolon_ss : ':' ∉ p1.2 :=
      not_mem_of_mem_splitOnChar ':' t p1.2
        (h1 ▸ List.mem_cons_of_mem _ (List.mem_cons_self _ _))
    have hdot_sec : '.' ∉ p2.1 :=
      not_mem_of_mem_splitOnChar '.' p1.2 p2.1 (h2 ▸ List.mem_cons_self _ _)
    have hdot_sam : '.' ∉ p2.2 :=
      not_mem_of_mem_splitOnChar '.' p1.2 p2.2
        (h2 ▸ List.mem_cons_of_mem _ (List.mem_cons_self _ _))
    have hcolon_sec : ':' ∉ p2.1 := fun h =>
      hcolon_ss (hss ▸ List.mem_append.mpr (Or.inl h))
    have hcolon_sam : ':' ∉ p2.2 := fun h =>
      hcolon_ss (hss ▸ List.mem_append.mpr (Or.inr (List.mem_cons_of_mem _ h)))
    refine ⟨p1.1, p2.1, p2.2, m, s, ?_, hcolon_m, hcolon_sec, hcolon_sam,
      hdot_sec, hdot_sam, hm, hs, (Option.some.inj hv).symm⟩
    rw [ht, hss]

/-- Witness for C6 at "1:30.045": both parts parse and the result is 90. -/
theorem convert_time_to_seconds_spec_witness :
    pyInt ['1'] = some 1 ∧ pyInt ['3', '0'] = some 30 ∧
    convert_time_to_seconds (['1'] ++ ':' :: (['3', '0'] ++ '.' :: ['0', '4', '5'])) =
      some (1 * 60 + 30) := by
  refine ⟨by decide, by decide, ?_⟩
  exact convert_time_to_seconds_spec.1 ['1'] ['3', '0'] ['0', '4', '5'] 1 30
    (by decide) (by decide) (by decide) (by decide) (by decide) (by decide) (by decide)

/-- C10: on the missing-`time`-column path every substituted integer index
fails `convert_time_to_seconds` (a non-string has no `.split`), so every row
is dropped, every window's segments are empty, and every response record
carries the default label "Neutral/Calm" — one record per window. -/
theorem missing_time_column_all_default (rows : List RawRow) (chunks : List Chunk) :
    (analyze_missing_time rows chunks).length = chunks.length ∧
    ∀ rec ∈ analyze_missing_time rows chunks, rec.emotion = "Neutral/Calm" := by
  have htab : table_with_index_time rows = [] := by
    unfold table_with_index_time convert_time_cell
    simp
  constructor
  · simp [analyze_missing_time, analyze_chunks]
  · intro rec hrec
    unfold analyze_missing_time at hrec
    rw [htab] at hrec
    unfold analyze_chunks at hrec
    obtain ⟨c, _, rfl⟩ := List.mem_map.mp hrec
    rfl

/-- Witness for C10 at a one-row, one-window input. -/
theorem missing_time_column_all_default_witness :
    (analyze_missing_time [{ ppg := some 1, gsr := some 1 }] [{ start := 0, stop := 10, text := "hi" }]).length = 1 ∧
    ({ timestamp := (0, 10), text := "hi", emotion := "Neutral/Calm" } : ResultRecord).emotion = "Neutral/Calm" := by
  have h := missing_time_column_all_default
    [{ ppg := some 1, gsr := some 1 }] [{ start := 0, stop := 10, text := "hi" }]
  exact ⟨h.1, h.2 { timestamp := (0, 10), text := "hi", emotion := "Neutral/Calm" } (by decide)⟩

/-- Helper: squaring preserves strict order on nonnegative rationals. -/
theorem lt_iff_sq_lt_sq (a b : ℚ) (ha : 0 ≤ a) (hb : 0 ≤ b) : a < b ↔ a ^ 2 < b ^ 2 := by
  constructor <;> intro h <;> nlinarith

/-- Helper: squaring preserves order on nonnegative rationals. -/
theorem le_iff_sq_le_sq (a b : ℚ) (ha : 0 ≤ a) (hb : 0 ≤ b) : a ≤ b ↔ a ^ 2 ≤ b ^ 2 := by
  constructor <;> intro h <;> nlinarith

/-- Justification for the squared reading of the classifier inside the
pipeline: on nonnegative features (SDNN and RMSSD are square roots, hence
nonnegative) the source classifier agrees with `classify_ppg_emotion_sq`
applied to the squares. -/
theorem classify_ppg_emotion_sq_eq (s r : ℚ) (hs : 0 ≤ s) (hr : 0 ≤ r) :
    classify_ppg_emotion s r = classify_ppg_emotion_sq (s ^ 2) (r ^ 2) := by
  have e100 : (10000 : ℚ) = 100 ^ 2 := by norm_num
  have e50 : (2500 : ℚ) = 50 ^ 2 := by norm_num
  have e30 : (900 : ℚ) = 30 ^ 2 := by norm_num
  have h1 : (100 : ℚ) < s ↔ 100 ^ 2 < s ^ 2 := lt_iff_sq_lt_sq 100 s (by norm_num) hs
  have h2 : s < 50 ↔ s ^ 2 < 50 ^ 2 := lt_iff_sq_lt_sq s 50 hs (by norm_num)
  have h3 : (50 : ℚ) ≤ s ↔ 50 ^ 2 ≤ s ^ 2 := le_iff_sq_le_sq 50 s (by norm_num) hs
  have h4 : s ≤ 100 ↔ s ^ 2 ≤ 100 ^ 2 := le_iff_sq_le_sq s 100 hs (by norm_num)
  have h5 : (50 : ℚ) < r ↔ 50 ^ 2 < r ^ 2 := lt_iff_sq_lt_sq 50 r (by norm_num) hr
  have h6 : r < 30 ↔ r ^ 2 < 30 ^ 2 := lt_iff_sq_lt_sq r 30 hr (by norm_num)
  have h7 : (30 : ℚ) ≤ r ↔ 30 ^ 2 ≤ r ^ 2 := le_iff_sq_le_sq 30 r (by norm_num) hr
  have h8 : r ≤ 50 ↔ r ^ 2 ≤ 50 ^ 2 := le_iff_sq_le_sq r 50 hr (by norm_num)
  unfold classify_ppg_emotion classify_ppg_emotion_sq
  rw [e100, e50, e30]
  simp only [gt_iff_lt, h1, h2, h3, h4, h5, h6, h7, h8]

end PPGGSR
